import Mathlib

/-!
# PayFastacy payment reconciliation core — shallow embedding

Shallow embedding of the reconciliation core of the `payfastacy` repository
(`route.js` handlers for `POST /init`, `POST /callback`, `GET /search`, the
`generateUniqueContent` helper, and the `payment` table of `db/schema.js`).

Storage is modelled as a `List Payment` (the Postgres `payment` relation; the
list order is the engine's query-result ordering).  Handlers are pure
functions from a storage state and a parsed request to a result and the new
storage state.  Randomness (the `nanoid` generator's entropy source) is an
explicit stream parameter `rand : Nat → Nat`.
-/

/-- One row of the `payment` table (`db/schema.js`): serial primary key `id`,
nullable unique `txn_id`, integer `amount`, unique `ref` and `content`,
boolean `status` defaulting to `false`, `created_at`, nullable `updated_at`.
Timestamps are epoch seconds (`Int`). -/
structure Payment where
  id : Nat
  txnId : Option String
  amount : Int
  ref : String
  content : String
  status : Bool
  createdAt : Int
  updatedAt : Option Int
deriving Repr, DecidableEq

/-- JS `hay.includes(needle)`: `needle` occurs as a contiguous substring of
`hay`. -/
def strContains (hay needle : String) : Bool :=
  decide (needle.toList <:+: hay.toList)

/-! ## Token generator (`generateUniqueContent`, route.js lines 51–79) -/

/-- The 62-symbol custom alphabet passed to `customAlphabet` in route.js. -/
def alphabet : String :=
  "0123456789ABCDEFGHIJKLMNOPQRSTUVWXYZabcdefghijklmnopqrstuvwxyz"

/-- The configured token length (`parseInt(process.env.CONTENT_LENGTH) || 11`,
default configuration). -/
def contentLength : Nat := 11

/-- Modelled from the spec: the `nanoid`/`customAlphabet` generator is an
external library, not part of this repository's sources; per §4.1 it
"produces a random string of configured length from a fixed alphanumeric
alphabet (digits + upper + lower case, 62 symbols)".  One call consumes
`contentLength` draws from the entropy stream `rand` starting at `start`;
each draw selects one alphabet symbol. -/
def nanoid (rand : Nat → Nat) (start : Nat) : String :=
  String.mk ((List.range contentLength).map
    (fun i => alphabet.toList.getD (rand (start + i) % alphabet.toList.length) '0'))

/-- The existence probe of `generateUniqueContent`:
`db.select().from(payment).where(eq(payment.content, content)).limit(1)`
followed by `existing.length === 0` (negated here: `true` means a row with
that content exists). -/
def contentExists (db : List Payment) (c : String) : Bool :=
  ((db.filter (fun p => p.content == c)).take 1).length != 0

/-- Retry bound of `generateUniqueContent` (`maxAttempts = 10`). -/
def maxAttempts : Nat := 10

/-- The retry loop of `generateUniqueContent`: while not unique and
`attempts < maxAttempts`, draw a candidate (attempt `k` uses stream positions
`k * contentLength ..`), probe storage, count the attempt.  Returns the
token (`none` models the thrown
`Failed to generate unique content after multiple attempts`) together with
the number of attempts performed.  `fuel + attempts = maxAttempts` at the
top-level call. -/
def generateUniqueContentAux (rand : Nat → Nat) (db : List Payment) :
    Nat → Nat → Option String × Nat
  | 0, attempts => (none, attempts)
  | fuel + 1, attempts =>
    let content := nanoid rand (attempts * contentLength)
    if contentExists db content then
      generateUniqueContentAux rand db fuel (attempts + 1)
    else
      (some content, attempts + 1)

/-- `generateUniqueContent(db)` of route.js: bounded-retry unique-token
generation.  First component: the token, or `none` when all `maxAttempts`
candidates collided (the thrown error).  Second component: attempts used. -/
def generateUniqueContent (rand : Nat → Nat) (db : List Payment) :
    Option String × Nat :=
  generateUniqueContentAux rand db maxAttempts 0

/-! ## `POST /init` (route.js lines 84–148) -/

/-- Outcome of the `/init` handler: 200 success payload `{content, ref,
amount}`, the 400 `Reference code already exists` rejection, or the catch-all
500 with the raised error's message. -/
inductive InitResult where
  | ok (content ref : String) (amount : Int)
  | duplicateReference
  | serverError (msg : String)
deriving Repr, DecidableEq

/-- The persistence layer's `INSERT` into `payment`
(drizzle migration `0000_magenta_roland_deschain.sql`): enforces the unique
constraints on `ref`, `content` and (for non-null values) `txn_id`, raising
a uniqueness-violation error, and otherwise appends the row. -/
def insertPayment (db : List Payment) (p : Payment) :
    Except String (List Payment) :=
  if db.any (fun q => q.ref == p.ref) then
    Except.error "duplicate key value violates unique constraint payment_ref_unique"
  else if db.any (fun q => q.content == p.content) then
    Except.error "duplicate key value violates unique constraint payment_content_unique"
  else if (match p.txnId with
           | some t => db.any (fun q => q.txnId == some t)
           | none => false) then
    Except.error "duplicate key value violates unique constraint payment_txn_id_unique"
  else
    Except.ok (db ++ [p])

/-- The `POST /init` handler.  `checkDb` is the storage snapshot read by the
`ref` pre-check and by `generateUniqueContent`; `insertDb` is the snapshot
the `INSERT` executes against (they differ exactly when a concurrent writer
committed between the read and the write; sequential executions pass the
same list twice).  `newId` and `now` are the serial id and `now()` the
persistence layer would assign.  The JS `catch` block maps any raised error
— generation exhaustion or a constraint violation — to the 500
`serverError` with the error's message. -/
def initHandler (checkDb insertDb : List Payment) (rand : Nat → Nat)
    (amount : Int) (ref : String) (newId : Nat) (now : Int) :
    InitResult × List Payment :=
  if ((checkDb.filter (fun p => p.ref == ref)).take 1).length > 0 then
    (InitResult.duplicateReference, insertDb)
  else
    match (generateUniqueContent rand checkDb).1 with
    | none =>
      (InitResult.serverError
        "Failed to generate unique content after multiple attempts", insertDb)
    | some content =>
      match insertPayment insertDb
          { id := newId, txnId := none, amount := amount, ref := ref,
            content := content, status := false, createdAt := now,
            updatedAt := none } with
      | Except.error msg => (InitResult.serverError msg, insertDb)
      | Except.ok db2 => (InitResult.ok content ref amount, db2)

/-! ## `POST /callback` (route.js lines 151–235) -/

/-- The parsed webhook body fields the handler destructures:
`{ content: webhookContent, transferAmount, referenceCode }`.  `content` is
`Option`al because the body schema does not list it as required. -/
structure CallbackBody where
  content : Option String
  transferAmount : Int
  referenceCode : String
deriving Repr, DecidableEq

/-- The `required` list of the `POST /callback` body schema (route.js lines
155–171): the schema declares properties only, no `required` array. -/
def callbackRequiredFields : List String := []

/-- Outcome of the `/callback` handler: 200 success, 404
`Payment not found or already processed`, or the catch-all 500. -/
inductive CallbackResult where
  | success
  | notFound
  | serverError
deriving Repr, DecidableEq

/-- The handler's candidate query: rows with `amount = transferAmount` and
`status = false`, post-filtered in JS by
`webhookContent.includes(p.content)`. -/
def callbackCandidates (db : List Payment) (wc : String) (amt : Int) :
    List Payment :=
  (db.filter (fun p => p.amount == amt && p.status == false)).filter
    (fun p => strContains wc p.content)

/-- The handler's `UPDATE payment SET txn_id, status, updated_at WHERE id =
selId`: every row whose `id` equals `selId` gets the three fields set;
every other row is untouched. -/
def reconcile (db : List Payment) (selId : Nat) (rc : String) (now : Int) :
    List Payment :=
  db.map (fun p =>
    if p.id == selId then
      { p with txnId := some rc, status := true, updatedAt := some now }
    else p)

/-- The `POST /callback` handler.  When the body omits `content`,
`webhookContent` is `undefined`; JS `Array.prototype.filter` on an empty
array never invokes its callback, so the `undefined.includes` `TypeError`
is raised (and caught as a 500) exactly when the amount/status query
returned at least one row — otherwise the handler reaches the
zero-match 404. -/
def callbackHandler (db : List Payment) (body : CallbackBody) (now : Int) :
    CallbackResult × List Payment :=
  match body.content with
  | none =>
    if (db.filter (fun p =>
        p.amount == body.transferAmount && p.status == false)).isEmpty then
      (CallbackResult.notFound, db)
    else
      (CallbackResult.serverError, db)
  | some wc =>
    match callbackCandidates db wc body.transferAmount with
    | [] => (CallbackResult.notFound, db)
    | h :: _ =>
      (CallbackResult.success, reconcile db h.id body.referenceCode now)

/-! ## `GET /search` (route.js lines 238–311) -/

/-- The parsed query string: all five filters optional.  `from`/`to` arrive
schema-validated as `YYYY-MM-DD` dates; they are modelled as the parsed
`(year, month, day)` triple. -/
structure SearchQuery where
  ref : Option String
  content : Option String
  status : Option String
  fromDate : Option (Int × Int × Int)
  toDate : Option (Int × Int × Int)
deriving Repr, DecidableEq

/-- Days from the Unix epoch to civil date `(y, m, d)` (proleptic Gregorian;
the standard days-from-civil computation used by ISO-8601 date parsing). -/
def daysFromCivil (y m d : Int) : Int :=
  let y2 : Int := if m ≤ 2 then y - 1 else y
  let era : Int := (if 0 ≤ y2 then y2 else y2 - 399) / 400
  let yoe : Int := y2 - era * 400
  let mp : Int := if 2 < m then m - 3 else m + 9
  let doy : Int := (153 * mp + 2) / 5 + d - 1
  let doe : Int := yoe * 365 + yoe / 4 - yoe / 100 + doy
  era * 146097 + doe - 719468

/-- Epoch seconds of `new Date(from + "T00:00:00+07:00")`: midnight of the
given calendar day in the fixed UTC+7 offset. -/
def utc7DayStart (y m d : Int) : Int :=
  daysFromCivil y m d * 86400 - 7 * 3600

/-- Epoch seconds of `new Date(to + "T23:59:59+07:00")`: the last second of
the given calendar day in the fixed UTC+7 offset. -/
def utc7DayEnd (y m d : Int) : Int :=
  daysFromCivil y m d * 86400 + 86399 - 7 * 3600

/-- The SQL `LIKE` metacharacters active in an unescaped pattern: `%`
(any sequence), `_` (exactly one character), and the default escape
character, the backslash. -/
def isLikeMeta (c : Char) : Bool := c == '%' || c == '_' || c == '\\'

/-- One element of a lexed `LIKE` pattern: a `%` wildcard, a `_` wildcard,
or a literal character. -/
inductive LikeTok where
  | anySeq
  | anyOne
  | lit (c : Char)
deriving DecidableEq, Repr

/-- Lexing of a Postgres `LIKE` pattern with the default escape character
(backslash): `\x` denotes the literal character `x`, `%` and `_` are
wildcards, anything else is literal.  `none` models the Postgres error for
a pattern ending in a bare escape (which cannot arise from the route's
`%…%` patterns: their final character is a `%`, possibly escaped by a
trailing backslash in the filter). -/
def likeLex : List Char → Option (List LikeTok)
  | [] => some []
  | c :: ps =>
    if c == '\\' then
      match ps with
      | [] => none
      | e :: ps2 => (likeLex ps2).map (fun ts => LikeTok.lit e :: ts)
    else if c == '%' then (likeLex ps).map (fun ts => LikeTok.anySeq :: ts)
    else if c == '_' then (likeLex ps).map (fun ts => LikeTok.anyOne :: ts)
    else (likeLex ps).map (fun ts => LikeTok.lit c :: ts)

/-- Matching of a lexed `LIKE` pattern against a string: `anySeq` consumes
any (possibly empty) suffix-producing prefix, `anyOne` exactly one
character, a literal exactly itself (case-sensitively). -/
def likeToksMatch : List LikeTok → List Char → Bool
  | [], s => s.isEmpty
  | LikeTok.anySeq :: ts, s => s.tails.any (fun s2 => likeToksMatch ts s2)
  | LikeTok.anyOne :: _, [] => false
  | LikeTok.anyOne :: ts, _ :: s2 => likeToksMatch ts s2
  | LikeTok.lit _ :: _, [] => false
  | LikeTok.lit c :: ts, c2 :: s2 => c2 == c && likeToksMatch ts s2

/-- Postgres `LIKE` with the default escape character: the semantics of
the `like(column, pattern)` conditions the `/search` route issues. -/
def likeMatch (p s : List Char) : Bool :=
  match likeLex p with
  | none => false
  | some ts => likeToksMatch ts s

/-- One `LIKE` condition guarded by JS truthiness: `if (ref)
conditions.push(like(payment.ref, `%ref%`))` — when the query value is
absent or the empty string (falsy) no condition is pushed, so the row
matches unconditionally.  The user-supplied filter is interpolated into
the pattern unescaped, so `%`, `_` and `\` inside it keep their `LIKE`
wildcard/escape meaning. -/
def likeCond (o : Option String) (s : String) : Bool :=
  match o with
  | some r => r == "" || likeMatch ('%' :: (r.toList ++ ['%'])) s.toList
  | none => true

/-- A filter value free of `LIKE` metacharacters (absent counts as free):
for such filters the route's `%…%` pattern means literal substring
containment. -/
def metaFree (o : Option String) : Bool :=
  match o with
  | some r => r.toList.all (fun ch => !isLikeMeta ch)
  | none => true

/-- The status condition: `status === 'paid'` pushes `eq(status, true)`,
`status === 'unpaid'` pushes `eq(status, false)`, anything else pushes
nothing. -/
def statusCond (o : Option String) (st : Bool) : Bool :=
  match o with
  | some s =>
    if s == "paid" then st == true
    else if s == "unpaid" then st == false
    else true
  | none => true

/-- The `from` condition: `gte(createdAt, new Date(from + "T00:00:00+07:00"))`
when present. -/
def fromCond (o : Option (Int × Int × Int)) (t : Int) : Bool :=
  match o with
  | some (y, m, d) => decide (utc7DayStart y m d ≤ t)
  | none => true

/-- The `to` condition: `lte(createdAt, new Date(to + "T23:59:59+07:00"))`
when present. -/
def toCond (o : Option (Int × Int × Int)) (t : Int) : Bool :=
  match o with
  | some (y, m, d) => decide (t ≤ utc7DayEnd y m d)
  | none => true

/-- The conjunction (`and(...conditions)`) of the pushed conditions; no
conditions means no `WHERE` clause: every row matches. -/
def searchPred (q : SearchQuery) (p : Payment) : Bool :=
  likeCond q.ref p.ref && likeCond q.content p.content &&
  statusCond q.status p.status &&
  fromCond q.fromDate p.createdAt && toCond q.toDate p.createdAt

/-- The `ORDER BY created_at` comparison. -/
def byCreated (a b : Payment) : Prop := a.createdAt ≤ b.createdAt

instance : DecidableRel byCreated := fun a b => Int.decLe a.createdAt b.createdAt

instance : IsTotal Payment byCreated := ⟨fun a b => Int.le_total a.createdAt b.createdAt⟩

instance : IsTrans Payment byCreated := ⟨fun _ _ _ h1 h2 => Int.le_trans h1 h2⟩

/-- Modelled from the spec: `formatPaymentResponse` is called by the
`/search` handler but its definition is not among the repository sources
provided; per §4.2, search "returns the full mapped view of each record".
The view carries every field of the record. -/
structure PaymentView where
  id : Nat
  txnId : Option String
  amount : Int
  ref : String
  content : String
  status : Bool
  createdAt : Int
  updatedAt : Option Int
deriving Repr, DecidableEq

/-- Modelled from the spec: the full mapped view of one record. -/
def formatPaymentResponse (p : Payment) : PaymentView :=
  { id := p.id, txnId := p.txnId, amount := p.amount, ref := p.ref,
    content := p.content, status := p.status, createdAt := p.createdAt,
    updatedAt := p.updatedAt }

/-- The `/search` 200 response body: `{ success, data, count }`. -/
structure SearchOutput where
  success : Bool
  data : List PaymentView
  count : Nat
deriving Repr, DecidableEq

/-- The `GET /search` handler: filter by the composed conditions, sort
ascending by `createdAt`, map each row through `formatPaymentResponse`,
report the row count. -/
def searchHandler (db : List Payment) (q : SearchQuery) : SearchOutput :=
  let payments := List.insertionSort byCreated (db.filter (searchPred q))
  { success := true,
    data := payments.map formatPaymentResponse,
    count := payments.length }

/-! ## Helper lemmas -/

theorem strContains_iff (hay needle : String) :
    strContains hay needle = true ↔ needle.toList <:+: hay.toList := by
  simp [strContains]

theorem mem_callbackCandidates (db : List Payment) (wc : String) (amt : Int)
    (p : Payment) :
    p ∈ callbackCandidates db wc amt ↔
      p ∈ db ∧ p.status = false ∧ p.amount = amt ∧
        p.content.toList <:+: wc.toList := by
  simp only [callbackCandidates, List.mem_filter, Bool.and_eq_true, beq_iff_eq,
    strContains_iff]
  constructor
  · rintro ⟨⟨hmem, hamt, hst⟩, hsub⟩
    exact ⟨hmem, by simpa using hst, hamt, hsub⟩
  · rintro ⟨hmem, hst, hamt, hsub⟩
    exact ⟨⟨hmem, hamt, by simp [hst]⟩, hsub⟩

theorem callbackCandidates_eq_nil (db : List Payment) (wc : String) (amt : Int)
    (h : ∀ p ∈ db,
      ¬(p.status = false ∧ p.amount = amt ∧ p.content.toList <:+: wc.toList)) :
    callbackCandidates db wc amt = [] := by
  rw [List.eq_nil_iff_forall_not_mem]
  intro p hp
  rw [mem_callbackCandidates] at hp
  exact h p hp.1 ⟨hp.2.1, hp.2.2.1, hp.2.2.2⟩

theorem contentExists_eq_false_iff (db : List Payment) (c : String) :
    contentExists db c = false ↔ ∀ p ∈ db, p.content ≠ c := by
  have hfil : (∀ p ∈ db, p.content ≠ c) ↔
      db.filter (fun q => q.content == c) = [] := by
    rw [List.filter_eq_nil_iff]
    constructor
    · intro h p hp
      simp [h p hp]
    · intro h p hp hc
      have := h p hp
      simp [hc] at this
  rw [hfil]
  cases hcase : db.filter (fun q => q.content == c) with
  | nil => simp [contentExists, hcase]
  | cons a l => simp [contentExists, hcase]

theorem generateUniqueContentAux_attempts_le (rand : Nat → Nat)
    (db : List Payment) (fuel attempts : Nat) :
    (generateUniqueContentAux rand db fuel attempts).2 ≤ attempts + fuel := by
  induction fuel generalizing attempts with
  | zero => simp [generateUniqueContentAux]
  | succ n ih =>
    simp only [generateUniqueContentAux]
    by_cases h : contentExists db (nanoid rand (attempts * contentLength)) = true
    · rw [if_pos h]
      have := ih (attempts + 1)
      omega
    · rw [if_neg h]
      omega

theorem generateUniqueContentAux_some (rand : Nat → Nat) (db : List Payment)
    (fuel attempts : Nat) (c : String)
    (h : (generateUniqueContentAux rand db fuel attempts).1 = some c) :
    (∃ k, c = nanoid rand (k * contentLength)) ∧ contentExists db c = false := by
  induction fuel generalizing attempts with
  | zero => simp [generateUniqueContentAux] at h
  | succ n ih =>
    simp only [generateUniqueContentAux] at h
    by_cases hex : contentExists db (nanoid rand (attempts * contentLength)) = true
    · rw [if_pos hex] at h
      exact ih (attempts + 1) h
    · rw [if_neg hex] at h
      have hc : c = nanoid rand (attempts * contentLength) := by
        simpa using h.symm
      subst hc
      exact ⟨⟨attempts, rfl⟩, by simpa using hex⟩

theorem generateUniqueContentAux_all_collide (rand : Nat → Nat)
    (db : List Payment) (fuel attempts : Nat)
    (h : ∀ i, attempts ≤ i → i < attempts + fuel →
      contentExists db (nanoid rand (i * contentLength)) = true) :
    (generateUniqueContentAux rand db fuel attempts).1 = none := by
  induction fuel generalizing attempts with
  | zero => simp [generateUniqueContentAux]
  | succ n ih =>
    simp only [generateUniqueContentAux]
    have hex : contentExists db (nanoid rand (attempts * contentLength)) = true :=
      h attempts (Nat.le_refl _) (by omega)
    rw [if_pos hex]
    exact ih (attempts + 1) (fun i h1 h2 => h i (by omega) (by omega))

theorem generateUniqueContent_fresh (rand : Nat → Nat) (db : List Payment)
    (c : String) (h : (generateUniqueContent rand db).1 = some c) :
    ∀ p ∈ db, p.content ≠ c :=
  (contentExists_eq_false_iff db c).1
    (generateUniqueContentAux_some rand db maxAttempts 0 c h).2

theorem nanoid_length (rand : Nat → Nat) (start : Nat) :
    (nanoid rand start).length = contentLength := by
  have h : (nanoid rand start).length = ((List.range contentLength).map
      (fun i => alphabet.toList.getD
        (rand (start + i) % alphabet.toList.length) '0')).length := rfl
  rw [h, List.length_map, List.length_range]

theorem alphabet_getD_mem (n : Nat) : alphabet.toList.getD n '0' ∈ alphabet.toList := by
  by_cases hlt : n < alphabet.toList.length
  · rw [List.getD_eq_getElem alphabet.toList '0' hlt]
    exact List.getElem_mem hlt
  · rw [List.getD_eq_getElem?_getD, List.getElem?_eq_none (Nat.le_of_not_lt hlt)]
    decide

theorem nanoid_chars (rand : Nat → Nat) (start : Nat) :
    ∀ ch ∈ (nanoid rand start).toList, ch ∈ alphabet.toList := by
  intro ch hch
  have hm : ch ∈ (List.range contentLength).map
      (fun i => alphabet.toList.getD
        (rand (start + i) % alphabet.toList.length) '0') := hch
  obtain ⟨i, _, hi⟩ := List.mem_map.1 hm
  subst hi
  exact alphabet_getD_mem _

theorem reconcile_of_not_mem_id (l : List Payment) (selId : Nat) (rc : String)
    (now : Int) (h : ∀ p ∈ l, p.id ≠ selId) :
    reconcile l selId rc now = l := by
  induction l with
  | nil => rfl
  | cons p rest ih =>
    simp only [reconcile, List.map_cons]
    rw [if_neg (by simp [h p (List.mem_cons_self p rest)])]
    have := ih (fun q hq => h q (List.mem_cons_of_mem p hq))
    simp only [reconcile] at this
    rw [this]

/-- Number of paid (`status = true`) records in a storage state. -/
def paidCount (db : List Payment) : Nat :=
  (db.filter (fun p => p.status)).length

theorem reconcile_cons (p : Payment) (rest : List Payment) (selId : Nat)
    (rc : String) (now : Int) :
    reconcile (p :: rest) selId rc now =
      (if p.id == selId then
        { p with txnId := some rc, status := true, updatedAt := some now }
       else p) :: reconcile rest selId rc now := rfl

theorem paidCount_reconcile (db : List Payment) (h : Payment) (rc : String)
    (now : Int) (hids : (db.map Payment.id).Nodup) (hmem : h ∈ db)
    (hst : h.status = false) :
    paidCount (reconcile db h.id rc now) = paidCount db + 1 := by
  induction db with
  | nil => simp at hmem
  | cons p rest ih =>
    rw [List.map_cons, List.nodup_cons] at hids
    rw [reconcile_cons]
    by_cases hp : p.id = h.id
    · have hph : p = h := by
        rcases List.mem_cons.1 hmem with heq | hrest
        · exact heq.symm
        · exfalso
          have hin : p.id ∈ List.map Payment.id rest := by
            rw [hp]
            exact List.mem_map_of_mem Payment.id hrest
          exact hids.1 hin
      have hrest_id : ∀ q ∈ rest, q.id ≠ h.id := by
        intro q hq hqid
        have hin : p.id ∈ List.map Payment.id rest := by
          rw [hp, ← hqid]
          exact List.mem_map_of_mem Payment.id hq
        exact hids.1 hin
      rw [if_pos (by simp [hp]), reconcile_of_not_mem_id rest h.id rc now hrest_id]
      subst hph
      simp [paidCount, List.filter_cons, hst]
    · have hrest : h ∈ rest := by
        rcases List.mem_cons.1 hmem with heq | hr
        · subst heq
          exact absurd rfl hp
        · exact hr
      rw [if_neg (by simp [hp])]
      have hrec := ih hids.2 hrest
      simp only [paidCount, List.filter_cons] at hrec ⊢
      by_cases hps : p.status = true
      · simp [hps, hrec]
      · simp only [Bool.not_eq_true] at hps
        simp [hps, hrec]

theorem callbackCandidates_reconcile_eq_nil (db : List Payment) (wc : String)
    (amt : Int) (rc : String) (now : Int) (h : Payment)
    (hc : callbackCandidates db wc amt = [h]) :
    callbackCandidates (reconcile db h.id rc now) wc amt = [] := by
  rw [List.eq_nil_iff_forall_not_mem]
  intro q hq
  rw [mem_callbackCandidates] at hq
  obtain ⟨hqmem, hqst, hqamt, hqsub⟩ := hq
  obtain ⟨p, hpmem, hpq⟩ := List.mem_map.1 hqmem
  by_cases hid : p.id = h.id
  · rw [← hpq] at hqst
    simp [hid] at hqst
  · have hq_eq : q = p := by
      rw [← hpq]
      simp [hid]
    subst hq_eq
    have hcand : q ∈ callbackCandidates db wc amt :=
      (mem_callbackCandidates db wc amt q).2 ⟨hpmem, hqst, hqamt, hqsub⟩
    rw [hc, List.mem_singleton] at hcand
    exact hid (by rw [hcand])

theorem isLikeMeta_false (c : Char) (hc : isLikeMeta c = false) :
    (c == '%') = false ∧ (c == '_') = false ∧ (c == '\\') = false := by
  unfold isLikeMeta at hc
  rw [Bool.or_eq_false_iff, Bool.or_eq_false_iff] at hc
  exact ⟨hc.1.1, hc.1.2, hc.2⟩

theorem likeLex_lit (c : Char) (ps : List Char) (hc : isLikeMeta c = false) :
    likeLex (c :: ps) = (likeLex ps).map (fun ts => LikeTok.lit c :: ts) := by
  obtain ⟨h1, h2, h3⟩ := isLikeMeta_false c hc
  rw [likeLex.eq_def]
  simp only [h1, h2, h3, Bool.false_eq_true, if_false]

theorem likeLex_metaFree_append (r ps : List Char)
    (hr : ∀ ch ∈ r, isLikeMeta ch = false) :
    likeLex (r ++ ps) = (likeLex ps).map (fun ts => r.map LikeTok.lit ++ ts) := by
  induction r with
  | nil =>
    rw [List.nil_append]
    cases likeLex ps <;> simp
  | cons c r2 ih =>
    have hc := hr c (List.mem_cons_self c r2)
    have hr2 : ∀ ch ∈ r2, isLikeMeta ch = false :=
      fun ch hch => hr ch (List.mem_cons_of_mem c hch)
    rw [List.cons_append, likeLex_lit c (r2 ++ ps) hc, ih hr2]
    cases likeLex ps <;> simp

theorem likeToksMatch_anySeq (ts : List LikeTok) (s : List Char) :
    likeToksMatch (LikeTok.anySeq :: ts) s = true ↔
      ∃ s2, s2 <:+ s ∧ likeToksMatch ts s2 = true := by
  show s.tails.any (fun s2 => likeToksMatch ts s2) = true ↔ _
  simp only [List.any_eq_true, List.mem_tails]

theorem likeToksMatch_lits_anySeq (r s : List Char) :
    likeToksMatch (r.map LikeTok.lit ++ [LikeTok.anySeq]) s = true ↔ r <+: s := by
  induction r generalizing s with
  | nil =>
    rw [List.map_nil, List.nil_append, likeToksMatch_anySeq]
    constructor
    · intro _
      exact List.nil_prefix
    · intro _
      refine ⟨[], List.nil_suffix, ?_⟩
      rfl
  | cons c r2 ih =>
    cases s with
    | nil =>
      rw [List.map_cons, List.cons_append]
      show false = true ↔ _
      constructor
      · intro h
        exact absurd h (by simp)
      · intro h
        have h2 := List.eq_nil_of_prefix_nil h
        simp at h2
    | cons c2 s2 =>
      rw [List.map_cons, List.cons_append]
      show (c2 == c && likeToksMatch (r2.map LikeTok.lit ++ [LikeTok.anySeq]) s2) =
        true ↔ _
      rw [Bool.and_eq_true, beq_iff_eq, List.cons_prefix_cons, ih s2]
      tauto

theorem likeMatch_pattern_iff_substring (r s : List Char)
    (hr : ∀ ch ∈ r, isLikeMeta ch = false) :
    likeMatch ('%' :: (r ++ ['%'])) s = true ↔ r <:+: s := by
  have hlex : likeLex ('%' :: (r ++ ['%'])) =
      some (LikeTok.anySeq :: (r.map LikeTok.lit ++ [LikeTok.anySeq])) := by
    have h1 : likeLex ('%' :: (r ++ ['%'])) =
        (likeLex (r ++ ['%'])).map (fun ts => LikeTok.anySeq :: ts) := by
      have e1 : ('%' == '\\') = false := by decide
      have e2 : ('%' == '%') = true := by decide
      rw [likeLex.eq_def]
      simp only [e1, e2, Bool.false_eq_true, if_false, if_true]
    rw [h1, likeLex_metaFree_append r ['%'] hr]
    rfl
  rw [likeMatch, hlex, likeToksMatch_anySeq]
  constructor
  · rintro ⟨s2, hs2, hm⟩
    exact List.infix_iff_prefix_suffix.2
      ⟨s2, (likeToksMatch_lits_anySeq r s2).1 hm, hs2⟩
  · intro hinf
    obtain ⟨t, hpre, hsuf⟩ := List.infix_iff_prefix_suffix.1 hinf
    exact ⟨t, hsuf, (likeToksMatch_lits_anySeq r t).2 hpre⟩

theorem metaFree_spec (o : Option String) (h : metaFree o = true) :
    ∀ r, o = some r → ∀ ch ∈ r.toList, isLikeMeta ch = false := by
  intro r hr ch hch
  cases o with
  | none => exact absurd hr (by simp)
  | some r2 =>
    have hr2e : r2 = r := by
      injection hr
    subst hr2e
    have hall : ∀ ch2 ∈ r2.toList, (!isLikeMeta ch2) = true :=
      List.all_eq_true.1 (by simpa [metaFree] using h)
    simpa using hall ch hch

theorem likeCond_iff (o : Option String) (s : String)
    (hm : ∀ r, o = some r → ∀ ch ∈ r.toList, isLikeMeta ch = false) :
    likeCond o s = true ↔ ∀ r, o = some r → r.toList <:+: s.toList := by
  cases o with
  | none => simp [likeCond]
  | some r =>
    have hr := hm r rfl
    constructor
    · intro h r2 hr2
      have hr2e : r = r2 := by
        injection hr2
      subst hr2e
      have h2 : r = "" ∨ likeMatch ('%' :: (r.toList ++ ['%'])) s.toList = true := by
        simpa [likeCond] using h
      rcases h2 with he | hs
      · subst he
        exact List.nil_infix
      · exact (likeMatch_pattern_iff_substring r.toList s.toList hr).1 hs
    · intro h
      have hs := (likeMatch_pattern_iff_substring r.toList s.toList hr).2 (h r rfl)
      have hs2 : likeMatch ('%' :: (r.data ++ ['%'])) s.data = true := hs
      simp [likeCond, hs2]

theorem statusCond_iff (o : Option String) (st : Bool) :
    statusCond o st = true ↔
      ((o = some "paid" → st = true) ∧ (o = some "unpaid" → st = false)) := by
  cases o with
  | none => simp [statusCond]
  | some s =>
    by_cases hp : s = "paid"
    · subst hp
      simp [statusCond]
    · by_cases hu : s = "unpaid"
      · subst hu
        simp [statusCond]
      · simp [statusCond, hp, hu]

theorem fromCond_iff (o : Option (Int × Int × Int)) (t : Int) :
    fromCond o t = true ↔
      ∀ y m d, o = some (y, m, d) → utc7DayStart y m d ≤ t := by
  cases o with
  | none => simp [fromCond]
  | some v =>
    obtain ⟨y, m, d⟩ := v
    simp [fromCond]

theorem toCond_iff (o : Option (Int × Int × Int)) (t : Int) :
    toCond o t = true ↔
      ∀ y m d, o = some (y, m, d) → t ≤ utc7DayEnd y m d := by
  cases o with
  | none => simp [toCond]
  | some v =>
    obtain ⟨y, m, d⟩ := v
    simp [toCond]

theorem searchPred_true_of_empty (p : Payment) :
    searchPred ⟨none, none, none, none, none⟩ p = true := rfl

/-! ## Concrete states used by the witnesses and counterexamples -/

/-- The pending record of the spec's worked `ProcessCallback` example. -/
def exRec : Payment :=
  { id := 1, txnId := none, amount := 50000, ref := "ORDER1",
    content := "abc123XYZ99", status := false, createdAt := 0,
    updatedAt := none }

def exDb : List Payment := [exRec]

/-- The webhook memo of the spec's worked example. -/
def exWc : String := "Chuyen tien ND abc123XYZ99 tks"

/-- Two pending records with equal amounts whose contents are both
substrings of the memo `"AAB"`. -/
def rec1 : Payment :=
  { id := 1, txnId := none, amount := 100, ref := "r1", content := "AA",
    status := false, createdAt := 0, updatedAt := none }

def rec2 : Payment :=
  { id := 2, txnId := none, amount := 100, ref := "r2", content := "AB",
    status := false, createdAt := 0, updatedAt := none }

def twoDb : List Payment := [rec1, rec2]

def body2 : CallbackBody :=
  { content := some "AAB", transferAmount := 100, referenceCode := "FT1" }

/-- A constant entropy stream: every draw selects alphabet index 10
(the character `A`), so every `nanoid` call yields `"AAAAAAAAAAA"`. -/
def constRand : Nat → Nat := fun _ => 10

/-- A state in which a concurrent `/init` has already committed `ref = "R"`. -/
def raceDb : List Payment :=
  [{ id := 1, txnId := none, amount := 100, ref := "R",
     content := "SOMECONTENT", status := false, createdAt := 0,
     updatedAt := none }]

/-- A state already holding the token every `constRand` draw produces, so
all generation attempts collide. -/
def collDb : List Payment :=
  [{ id := 1, txnId := none, amount := 5, ref := "r",
     content := "AAAAAAAAAAA", status := false, createdAt := 0,
     updatedAt := none }]

/-- A record whose `ref` is matched by the `LIKE` pattern
`%ORDER_123%` (the `_` wildcard matches the `X`) although the filter
string `ORDER_123` is not a literal substring of it. -/
def wildRec : Payment :=
  { id := 1, txnId := none, amount := 100, ref := "ORDERX123",
    content := "tok", status := false, createdAt := 0, updatedAt := none }

/-! ## Claims -/

/-- C1: for every storage state and every
`ProcessCallback(webhookContent, transferAmount, referenceCode)` call, the
candidate set is exactly the records with `status = false` and
`amount = transferAmount` whose `content` is a substring of
`webhookContent`; when this set is non-empty the handler returns success
and the selected (first) record appears in the new state with
`status = true`, `txnId = referenceCode` and `updatedAt` set to now. -/
theorem processCallback_matching_spec (db : List Payment) (wc : String)
    (amt : Int) (rc : String) (now : Int) :
    (∀ p, p ∈ callbackCandidates db wc amt ↔
      p ∈ db ∧ p.status = false ∧ p.amount = amt ∧
        p.content.toList <:+: wc.toList) ∧
    (∀ h t, callbackCandidates db wc amt = h :: t →
      (callbackHandler db ⟨some wc, amt, rc⟩ now).1 = CallbackResult.success ∧
      { h with txnId := some rc, status := true, updatedAt := some now } ∈
        (callbackHandler db ⟨some wc, amt, rc⟩ now).2) := by
  refine ⟨mem_callbackCandidates db wc amt, ?_⟩
  intro h t hc
  have hhm : h ∈ db :=
    ((mem_callbackCandidates db wc amt h).1 (hc ▸ List.mem_cons_self h t)).1
  have h2 : (callbackHandler db ⟨some wc, amt, rc⟩ now).2 =
      reconcile db h.id rc now := by
    simp [callbackHandler, hc]
  refine ⟨by simp [callbackHandler, hc], ?_⟩
  rw [h2]
  have hf := List.mem_map_of_mem
    (fun p : Payment => if p.id == h.id then
      { p with txnId := some rc, status := true, updatedAt := some now }
     else p) hhm
  simp only [beq_self_eq_true, if_true] at hf
  exact hf

/-- Witness for C1 at the spec's worked example: memo
`Chuyen tien ND abc123XYZ99 tks`, amount `50000`, pending record with
content `abc123XYZ99`. -/
theorem processCallback_matching_spec_witness :
    (callbackHandler exDb ⟨some exWc, 50000, "FT999"⟩ 77).1 =
      CallbackResult.success :=
  ((processCallback_matching_spec exDb exWc 50000 "FT999" 77).2 exRec []
    (by decide)).1

/-- C3: when no pending record has the transfer's amount and a content
substring of the memo, the callback fails with the not-found outcome and
storage is unchanged. -/
theorem processCallback_no_match (db : List Payment) (wc : String) (amt : Int)
    (rc : String) (now : Int)
    (hnone : ∀ p ∈ db, ¬(p.status = false ∧ p.amount = amt ∧
      p.content.toList <:+: wc.toList)) :
    callbackHandler db ⟨some wc, amt, rc⟩ now = (CallbackResult.notFound, db) := by
  have hnil := callbackCandidates_eq_nil db wc amt hnone
  simp [callbackHandler, hnil]

/-- Witness for C3: a record whose content does not occur in the memo. -/
theorem processCallback_no_match_witness :
    callbackHandler [rec1] ⟨some "zzz", 100, "FT2"⟩ 9 =
      (CallbackResult.notFound, [rec1]) :=
  processCallback_no_match [rec1] "zzz" 100 "FT2" 9 (by decide)

/-- C5: `CreatePayment` against a state that already holds the supplied
`ref` fails with the duplicate-reference outcome and leaves storage
unchanged. -/
theorem createPayment_duplicate_ref (db : List Payment) (rand : Nat → Nat)
    (amount : Int) (ref : String) (newId : Nat) (now : Int)
    (hdup : ∃ p ∈ db, p.ref = ref) :
    initHandler db db rand amount ref newId now =
      (InitResult.duplicateReference, db) := by
  obtain ⟨p, hp, hr⟩ := hdup
  have hm : p ∈ db.filter (fun q => q.ref == ref) :=
    List.mem_filter.2 ⟨hp, by simp [hr]⟩
  have hne : db.filter (fun q => q.ref == ref) ≠ [] := List.ne_nil_of_mem hm
  have hpos : 0 < ((db.filter (fun q => q.ref == ref)).take 1).length := by
    cases hcase : db.filter (fun q => q.ref == ref) with
    | nil => exact absurd hcase hne
    | cons a l => simp [hcase]
  simp only [initHandler, gt_iff_lt]
  rw [if_pos hpos]

/-- Witness for C5: re-submitting `ref = "R"` against a state holding it. -/
theorem createPayment_duplicate_ref_witness :
    initHandler raceDb raceDb constRand 100 "R" 2 5 =
      (InitResult.duplicateReference, raceDb) :=
  createPayment_duplicate_ref raceDb constRand 100 "R" 2 5 (by decide)

/-- C7: when more than one pending record matches, the record selected is
the first match in the query-result ordering; the update touches exactly
the rows keyed by that record's `id` and leaves every other row unchanged
(stated pointwise over positions). -/
theorem processCallback_first_match_frame (db : List Payment) (wc : String)
    (amt : Int) (rc : String) (now : Int) (h : Payment) (t : List Payment)
    (hc : callbackCandidates db wc amt = h :: t) (ht : t ≠ []) :
    (callbackHandler db ⟨some wc, amt, rc⟩ now).1 = CallbackResult.success ∧
    ((callbackHandler db ⟨some wc, amt, rc⟩ now).2).length = db.length ∧
    ∀ i : Nat, ((callbackHandler db ⟨some wc, amt, rc⟩ now).2)[i]? =
      (db[i]?).map (fun p =>
        if p.id = h.id then
          { p with txnId := some rc, status := true, updatedAt := some now }
        else p) := by
  have h2 : (callbackHandler db ⟨some wc, amt, rc⟩ now).2 =
      reconcile db h.id rc now := by
    simp [callbackHandler, hc]
  refine ⟨by simp [callbackHandler, hc], ?_, ?_⟩
  · rw [h2]
    simp [reconcile]
  · intro i
    rw [h2]
    simp only [reconcile, List.getElem?_map]
    cases db[i]? with
    | none => rfl
    | some p =>
      simp only [Option.map]
      by_cases hid : p.id = h.id
      · rw [if_pos (by simp [hid]), if_pos hid]
      · rw [if_neg (by simp [hid]), if_neg hid]

/-- The first record of `twoDb` after reconciliation with `FT1` at time 5. -/
def rec1upd : Payment :=
  { rec1 with txnId := some "FT1", status := true, updatedAt := some 5 }

/-- Witness for C7: two pending records match the memo `"AAB"`; the first
(`id = 1`) is selected and updated. -/
theorem processCallback_first_match_frame_witness :
    ((callbackHandler twoDb ⟨some "AAB", 100, "FT1"⟩ 5).2)[0]? = some rec1upd := by
  have hw := (processCallback_first_match_frame twoDb "AAB" 100 "FT1" 5 rec1
    [rec2] (by decide) (by decide)).2.2 0
  rw [hw]
  decide

/-- C2 counterexample: the route interpolates the filter unescaped into a
SQL `LIKE` pattern, so `_` in the filter is a wildcard: searching
`ref = "ORDER_123"` returns the record with `ref = "ORDERX123"` even
though `"ORDER_123"` is not a substring of `"ORDERX123"` — the claim's
substring reading of the filters is false of the program. -/
theorem searchPayments_substring_counterexample :
    (searchHandler [wildRec] ⟨some "ORDER_123", none, none, none, none⟩).data =
      [formatPaymentResponse wildRec] ∧
    ¬("ORDER_123".toList <:+: "ORDERX123".toList) := by decide

/-- C2 (amended): `SearchPayments` returns success with the full mapped
view of exactly the records matching the AND of the optional filters,
ordered ascending by `createdAt`, together with the result count; the
`ref`/`content` filters are unescaped SQL `LIKE '%filter%'` matches, which
coincide with substring containment whenever the filter strings contain no
`LIKE` metacharacter (`%`, `_`, `\`); `status` maps paid/unpaid to the
boolean and `from`/`to` bound `createdAt` by the inclusive UTC+7 calendar
days; with no filters every record is returned. -/
theorem searchPayments_spec (db : List Payment) (q : SearchQuery) :
    (searchHandler db q).success = true ∧
    (searchHandler db q).count = (searchHandler db q).data.length ∧
    List.Pairwise (fun a b : PaymentView => a.createdAt ≤ b.createdAt)
      (searchHandler db q).data ∧
    ((searchHandler db q).data).Perm
      ((db.filter (searchPred q)).map formatPaymentResponse) ∧
    (∀ p : Payment, metaFree q.ref = true → metaFree q.content = true →
      (searchPred q p = true ↔
        ((∀ r, q.ref = some r → r.toList <:+: p.ref.toList) ∧
         (∀ c, q.content = some c → c.toList <:+: p.content.toList) ∧
         (q.status = some "paid" → p.status = true) ∧
         (q.status = some "unpaid" → p.status = false) ∧
         (∀ y m d, q.fromDate = some (y, m, d) → utc7DayStart y m d ≤ p.createdAt) ∧
         (∀ y m d, q.toDate = some (y, m, d) → p.createdAt ≤ utc7DayEnd y m d)))) ∧
    (q = ⟨none, none, none, none, none⟩ → db.filter (searchPred q) = db) := by
  refine ⟨rfl, ?_, ?_, ?_, ?_, ?_⟩
  · simp [searchHandler]
  · have hs : List.Pairwise byCreated
        (List.insertionSort byCreated (db.filter (searchPred q))) :=
      List.sorted_insertionSort byCreated (db.filter (searchPred q))
    exact hs.map formatPaymentResponse (fun a b hab => hab)
  · exact (List.perm_insertionSort byCreated
      (db.filter (searchPred q))).map formatPaymentResponse
  · intro p hmr hmc
    simp only [searchPred, Bool.and_eq_true,
      likeCond_iff q.ref p.ref (metaFree_spec q.ref hmr),
      likeCond_iff q.content p.content (metaFree_spec q.content hmc),
      statusCond_iff, fromCond_iff, toCond_iff]
    tauto
  · intro hq
    subst hq
    exact List.filter_eq_self.2 (fun p _ => searchPred_true_of_empty p)

/-- Witness for C2 (amended): a metacharacter-free `ref` filter that
matches the example record does occur in its `ref` as a substring. -/
theorem searchPayments_spec_witness :
    "ORD".toList <:+: exRec.ref.toList := by
  have h := ((searchPayments_spec exDb
    ⟨some "ORD", none, none, none, none⟩).2.2.2.2.1 exRec
    (by decide) (by decide)).1 (by decide)
  exact h.1 "ORD" rfl

/-- C4 counterexample: the claim quantifies over every storage state, but
with two pending records (`content "AA"` and `"AB"`, both amount 100) whose
contents are both substrings of the memo `"AAB"`, the second delivery of
the same payload matches the still-pending second record and returns
success — not `NoMatchingPayment`. -/
theorem processCallback_twice_not_idempotent :
    (callbackHandler (callbackHandler twoDb body2 5).2 body2 6).1 =
      CallbackResult.success := by decide

/-- C4 (amended): over a storage state with pairwise-distinct ids in which
exactly one pending record matches the payload, the first call succeeds and
transitions exactly one record to paid, and the second call with the same
payload returns the not-found outcome and leaves every record unchanged. -/
theorem processCallback_idempotent_unique (db : List Payment) (wc : String)
    (amt : Int) (rc : String) (now now2 : Int) (h : Payment)
    (hids : (db.map Payment.id).Nodup)
    (hc : callbackCandidates db wc amt = [h]) :
    (callbackHandler db ⟨some wc, amt, rc⟩ now).1 = CallbackResult.success ∧
    paidCount (callbackHandler db ⟨some wc, amt, rc⟩ now).2 = paidCount db + 1 ∧
    callbackHandler (callbackHandler db ⟨some wc, amt, rc⟩ now).2
        ⟨some wc, amt, rc⟩ now2 =
      (CallbackResult.notFound, (callbackHandler db ⟨some wc, amt, rc⟩ now).2) := by
  have hmem := (mem_callbackCandidates db wc amt h).1
    (hc ▸ List.mem_cons_self h [])
  have h2 : (callbackHandler db ⟨some wc, amt, rc⟩ now).2 =
      reconcile db h.id rc now := by
    simp [callbackHandler, hc]
  refine ⟨by simp [callbackHandler, hc], ?_, ?_⟩
  · rw [h2]
    exact paidCount_reconcile db h rc now hids hmem.1 hmem.2.1
  · rw [h2]
    have hnil := callbackCandidates_reconcile_eq_nil db wc amt rc now h hc
    simp [callbackHandler, hnil]

/-- Witness for C4 (amended) at the spec's worked example: the redelivered
webhook gets `NoMatchingPayment` and mutates nothing. -/
theorem processCallback_idempotent_unique_witness :
    callbackHandler (callbackHandler exDb ⟨some exWc, 50000, "FT999"⟩ 7).2
        ⟨some exWc, 50000, "FT999"⟩ 8 =
      (CallbackResult.notFound,
        (callbackHandler exDb ⟨some exWc, 50000, "FT999"⟩ 7).2) :=
  (processCallback_idempotent_unique exDb exWc 50000 "FT999" 7 8 exRec
    (by decide) (by decide)).2.2

/-- C6 (code-bug exhibit): the pre-check sees no `ref = "R"`, a concurrent
insert has committed `ref = "R"` (`raceDb`), and the insert raises the
uniqueness violation — the handler reports the catch-all 500 server error
carrying the raw persistence message, not the `DuplicateReference`
classification of the pre-check path. -/
theorem createPayment_race_misclassified :
    (initHandler [] raceDb constRand 100 "R" 2 5).1 =
      InitResult.serverError
        "duplicate key value violates unique constraint payment_ref_unique" ∧
    (initHandler [] raceDb constRand 100 "R" 2 5).1 ≠
      InitResult.duplicateReference := by decide

/-- C8 counterexample: with the same storage state (empty) and an entropy
stream that repeats (`constRand`, a possible draw of any random source),
two sequential generation calls — the second continuing the stream after
the `contentLength` draws the first consumed — return the same token
`"AAAAAAAAAAA"`, contradicting "generation never returns two equal content
values across sequential calls against the same storage state". -/
theorem generateUniqueContent_repeat :
    (generateUniqueContent constRand []).1 = some "AAAAAAAAAAA" ∧
    (generateUniqueContent (fun n => constRand (n + contentLength)) []).1 =
      some "AAAAAAAAAAA" := by decide

/-- C8 (amended): every generated token has the configured length, draws
all characters from the 62-symbol alphabet, and differs from every content
persisted at check time; consequently two sequential calls return distinct
tokens provided the first token is persisted before the second call. -/
theorem generateUniqueContent_spec (rand : Nat → Nat) (db : List Payment)
    (c : String) (hgen : (generateUniqueContent rand db).1 = some c) :
    c.length = contentLength ∧
    (∀ ch ∈ c.toList, ch ∈ alphabet.toList) ∧
    (∀ p ∈ db, p.content ≠ c) ∧
    (∀ rand2 q c2, q.content = c →
      (generateUniqueContent rand2 (db ++ [q])).1 = some c2 → c2 ≠ c) := by
  obtain ⟨⟨k, hk⟩, hex⟩ :=
    generateUniqueContentAux_some rand db maxAttempts 0 c hgen
  refine ⟨?_, ?_, generateUniqueContent_fresh rand db c hgen, ?_⟩
  · rw [hk]
    exact nanoid_length rand (k * contentLength)
  · rw [hk]
    exact nanoid_chars rand (k * contentLength)
  · intro rand2 qq c2 hqc hgen2 he
    have hfresh := generateUniqueContent_fresh rand2 (db ++ [qq]) c2 hgen2
    exact hfresh qq (by simp) (by rw [hqc, he])

/-- Witness for C8 (amended): a concrete successful generation. -/
theorem generateUniqueContent_spec_witness :
    ("AAAAAAAAAAA" : String).length = contentLength :=
  (generateUniqueContent_spec constRand [] "AAAAAAAAAAA" (by decide)).1

/-- C9: generation performs at most `maxAttempts = 10` attempts (one
storage probe each, no writes); when every candidate collides it returns
the exhaustion failure, which `/init` surfaces as the 500 server error with
the generation-failure message, leaving storage unchanged. -/
theorem generateUniqueContent_bounded (rand : Nat → Nat) (db : List Payment)
    (amount : Int) (ref : String) (newId : Nat) (now : Int) :
    (generateUniqueContent rand db).2 ≤ maxAttempts ∧
    ((∀ i, i < maxAttempts →
        contentExists db (nanoid rand (i * contentLength)) = true) →
      (generateUniqueContent rand db).1 = none ∧
      (db.filter (fun p => p.ref == ref) = [] →
        initHandler db db rand amount ref newId now =
          (InitResult.serverError
            "Failed to generate unique content after multiple attempts", db))) := by
  constructor
  · simpa using generateUniqueContentAux_attempts_le rand db maxAttempts 0
  · intro hall
    have hnone : (generateUniqueContent rand db).1 = none :=
      generateUniqueContentAux_all_collide rand db maxAttempts 0
        (fun i h1 h2 => hall i (by omega))
    refine ⟨hnone, fun hfil => ?_⟩
    simp [initHandler, hfil, hnone]

/-- Witness for C9: a state already holding every token `constRand` can
draw, so all ten attempts collide and `/init` reports the server error. -/
theorem generateUniqueContent_bounded_witness :
    initHandler collDb collDb constRand 7 "newref" 2 5 =
      (InitResult.serverError
        "Failed to generate unique content after multiple attempts", collDb) :=
  ((generateUniqueContent_bounded constRand collDb 7 "newref" 2 5).2
    (by decide)).2 (by decide)

/-- C10 counterexample: the claim asserts a 500 for every storage state,
but with empty storage the amount/status query returns no rows, JS
`Array.prototype.filter` never invokes the throwing callback, and the
handler returns the 404 not-found outcome instead. -/
theorem processCallback_missing_content_empty :
    callbackHandler [] ⟨none, 100, "FT1"⟩ 3 = (CallbackResult.notFound, []) ∧
    (callbackHandler [] ⟨none, 100, "FT1"⟩ 3).1 ≠ CallbackResult.serverError := by
  decide

/-- C10 (amended): the callback body schema does not require `content`;
a request omitting it never mutates storage, returns the 500 server error
exactly when at least one pending record with the transfer's amount exists
(the filter callback then dereferences `undefined`), and otherwise returns
the not-found outcome. -/
theorem processCallback_missing_content (db : List Payment) (amt : Int)
    (rc : String) (now : Int) :
    "content" ∉ callbackRequiredFields ∧
    (callbackHandler db ⟨none, amt, rc⟩ now).2 = db ∧
    (db.filter (fun p => p.amount == amt && p.status == false) ≠ [] →
      (callbackHandler db ⟨none, amt, rc⟩ now).1 = CallbackResult.serverError) ∧
    (db.filter (fun p => p.amount == amt && p.status == false) = [] →
      (callbackHandler db ⟨none, amt, rc⟩ now).1 = CallbackResult.notFound) := by
  have hred : callbackHandler db ⟨none, amt, rc⟩ now =
      if (db.filter (fun p => p.amount == amt && p.status == false)).isEmpty
      then (CallbackResult.notFound, db)
      else (CallbackResult.serverError, db) := rfl
  refine ⟨by simp [callbackRequiredFields], ?_, ?_, ?_⟩
  · rw [hred]
    cases (db.filter (fun p => p.amount == amt && p.status == false)).isEmpty <;>
      simp
  · intro hne
    rw [hred]
    cases hcase : db.filter (fun p => p.amount == amt && p.status == false) with
    | nil => exact absurd hcase hne
    | cons a l => simp
  · intro hnil
    rw [hred, hnil]
    simp

/-- Witness for C10 (amended): a pending record with the transfer's amount
exists, so the missing-content request yields the 500 outcome. -/
theorem processCallback_missing_content_witness :
    (callbackHandler collDb ⟨none, 5, "FT9"⟩ 1).1 = CallbackResult.serverError :=
  (processCallback_missing_content collDb 5 "FT9" 1).2.2.1 (by decide)
